import Mathlib

/-!
Shallow embedding of the Deep-Research Orchestrator of
`04_Production_RAG/langgraph_deep_research.py`.

The LLM ("Oracle") and the Chroma retriever are external capabilities; they
are modelled as an `Oracle` structure of response functions.  Each phase node
(`_planning_node`, `_searching_node`, `_analyzing_node`, `_synthesizing_node`,
`_reporting_node`, `_iterating_node`) is translated directly from the Python
source; JSON dictionaries become Lean structures, `json.loads` failure becomes
the `badJSON` oracle reply, a raised exception becomes the `raise` reply
(propagated as `Except.error`), and the compiled LangGraph workflow
(planner -> searcher -> analyzer -> synthesizer -> reporter -> conditional
`_should_iterate` -> iterator -> searcher) becomes a fuel-indexed loop that
also records the trace of executed nodes.
-/

set_option maxRecDepth 4000

namespace DeepResearch

/-- The `research_plan` dictionary.  `Option` fields model JSON keys that may
be absent (`dict.get` with a default in the source). -/
structure Plan where
  sub_questions : Option (List String) := none
  key_areas : List String := []
  search_strategies : Option (List String) := none
  sources_to_check : List String := []
  estimated_complexity : String := ""
  research_depth : String := ""
  additional_queries : Option (List String) := none
deriving DecidableEq, Inhabited

/-- The fallback plan substituted by `_planning_node` on `json.JSONDecodeError`. -/
def fallbackPlan (query : String) : Plan :=
  { sub_questions := some [query],
    key_areas := ["general information"],
    search_strategies := some ["web search", "academic sources"],
    sources_to_check := ["websites", "papers", "reports"],
    estimated_complexity := "Medium",
    research_depth := "Deep",
    additional_queries := none }

/-- The `analysis_results` dictionary produced by `_analyzing_node`. -/
structure Analysis where
  source_evaluations : List String := []
  key_facts : List String := []
  insights : List String := []
  contradictions : List String := []
  gaps : List String := []
  overall_quality : String := ""
deriving DecidableEq, Inhabited

/-- Fallback analysis substituted on `json.JSONDecodeError` in `_analyzing_node`. -/
def fallbackAnalysis : Analysis :=
  { source_evaluations := [],
    key_facts := ["Analysis failed to parse"],
    insights := ["Unable to extract insights"],
    contradictions := [],
    gaps := ["Analysis incomplete"],
    overall_quality := "Unknown" }

/-- The `synthesis` dictionary produced by `_synthesizing_node`. -/
structure Synthesis where
  key_insights : List String := []
  patterns : List String := []
  implications : List String := []
  recommendations : List String := []
  further_research : List String := []
  confidence_level : String := ""
deriving DecidableEq, Inhabited

/-- Fallback synthesis substituted on `json.JSONDecodeError` in `_synthesizing_node`. -/
def fallbackSynthesis : Synthesis :=
  { key_insights := ["Synthesis failed to parse"],
    patterns := [],
    implications := [],
    recommendations := [],
    further_research := [],
    confidence_level := "Low" }

/-- The iteration decision JSON of `_iterating_node`. -/
structure IterationDecision where
  needs_more_research : Bool := false
  reasoning : String := ""
  additional_queries : List String := []
deriving DecidableEq, Inhabited

/-- Fallback decision substituted on `json.JSONDecodeError` in `_iterating_node`. -/
def fallbackDecision : IterationDecision :=
  { needs_more_research := false,
    reasoning := "Unable to parse iteration decision",
    additional_queries := [] }

/-- The field `state["analysis_results"]` is initialised to the empty list `[]` by
`conduct_research` and later rebound to a dictionary by `_analyzing_node`. -/
inductive AnalysisVal where
  | emptyList
  | obj (a : Analysis)
deriving DecidableEq, Inhabited

/-- The field `state["synthesis"]` is initialised to the empty dict `{}` and later
rebound to a synthesis dictionary by `_synthesizing_node`. -/
inductive SynthVal where
  | emptyObj
  | obj (s : Synthesis)
deriving DecidableEq, Inhabited

/-- One entry of `state["messages"]`.  Each constructor carries exactly the
data interpolated into the corresponding message string in the source. -/
inductive Msg where
  | human (content : String)
  | planCreated (plan : Plan)
  | foundSources (n : Nat)
  | analysisCompleted (keyFacts : Nat)
  | synthesisCompleted (insights : Nat)
  | reportGenerated (chars : Nat)
  | additionalResearchNeeded (reasoning : String)
  | researchIterationComplete
deriving DecidableEq, Inhabited

/-- One entry of the `search_results` list built by `_simulate_web_search`. -/
structure SearchResult where
  title : String
  url : String
  content : String
  relevance_score : ℚ
  source_type : String
deriving DecidableEq, Inhabited

/-- A LangChain `Document` as built by `_searching_node` (page content plus
the metadata dictionary). -/
structure Document where
  page_content : String
  title : String
  url : String
  source_type : String
  relevance_score : ℚ
deriving DecidableEq, Inhabited

/-- The `ResearchState` TypedDict. -/
structure ResearchState where
  messages : List Msg
  query : String
  research_plan : Plan
  search_results : List SearchResult
  analysis_results : AnalysisVal
  synthesis : SynthVal
  final_report : String
  current_phase : String
  iteration_count : Nat
  max_iterations : Nat
  research_complete : Bool
deriving DecidableEq, Inhabited

/-- Research state together with the `self.vectorstore` contents, which
`_searching_node` appends to and `_analyzing_node` retrieves from. -/
structure Sys where
  rs : ResearchState
  vectorstore : List Document
deriving DecidableEq, Inhabited

/-- Outcome of an Oracle (LLM) call whose text is passed to `json.loads`:
the call can raise, return unparseable text, or return parseable JSON. -/
inductive OracleReply (α : Type) where
  | raise (msg : String)
  | badJSON
  | parsed (v : α)

/-- The external capabilities: one response function per Oracle call site,
plus the Chroma retriever (`as_retriever(search_kwargs={"k": 5})`).  Each
function receives the state from which the corresponding prompt is built. -/
structure Oracle where
  planReply : ResearchState → OracleReply Plan
  retrieve : List Document → String → List Document
  analyzeReply : ResearchState → List Document → OracleReply Analysis
  synthReply : ResearchState → OracleReply Synthesis
  reportReply : ResearchState → Except String String
  iterateReply : ResearchState → OracleReply IterationDecision

/-- Embeds `sub_query.replace(' ', '-')` (single-character pattern). -/
def replaceSpacesWithDashes (s : String) : String :=
  String.mk (s.data.map fun c => if c = ' ' then '-' else c)

/-- The three mock entries generated for sub-question `sub_query` at index `i`
inside `_simulate_web_search`. -/
def mockResultsFor (sub_query : String) (i : Nat) : List SearchResult :=
  let slug := replaceSpacesWithDashes sub_query ++ "-" ++ toString i
  [ { title := "Research Article: " ++ sub_query,
      url := "https://example.com/research/" ++ slug,
      content := "This is a comprehensive article about " ++ sub_query ++
        " that provides detailed insights and analysis. It covers the main aspects of the topic and provides evidence-based conclusions.",
      relevance_score := 95/100 - (i : ℚ) * (1/10),
      source_type := "academic" },
    { title := "Industry Report: " ++ sub_query,
      url := "https://example.com/industry/" ++ slug,
      content := "An industry analysis of " ++ sub_query ++
        " with market trends, future predictions, and practical applications. This report provides valuable insights for business decision-making.",
      relevance_score := 88/100 - (i : ℚ) * (1/10),
      source_type := "industry" },
    { title := "News Article: " ++ sub_query,
      url := "https://example.com/news/" ++ slug,
      content := "Recent news and developments related to " ++ sub_query ++
        ". This article provides up-to-date information and current perspectives on the topic.",
      relevance_score := 82/100 - (i : ℚ) * (1/10),
      source_type := "news" } ]

/-- Mock search `_simulate_web_search`: deterministic mock results for up to three
sub-questions (`research_plan.get("sub_questions", [query])`). -/
def _simulate_web_search (query : String) (research_plan : Plan) : List SearchResult :=
  let sub_questions := research_plan.sub_questions.getD [query]
  (((sub_questions.take 3).enum).map fun p => mockResultsFor p.2 p.1).flatten

/-- Planning node: Oracle plan request; on `JSONDecodeError` the documented
default plan is substituted; any other exception propagates. -/
def _planning_node (o : Oracle) (sys : Sys) : Except String Sys :=
  match o.planReply sys.rs with
  | .raise e => .error e
  | .badJSON =>
    .ok { sys with rs := { sys.rs with
      research_plan := fallbackPlan sys.rs.query,
      current_phase := "planning",
      messages := sys.rs.messages ++ [.planCreated (fallbackPlan sys.rs.query)] } }
  | .parsed research_plan =>
    .ok { sys with rs := { sys.rs with
      research_plan := research_plan,
      current_phase := "planning",
      messages := sys.rs.messages ++ [.planCreated research_plan] } }

/-- Searching node: runs the mock search, appends the produced documents to
the vector store (guarded by `if documents:`), and rebinds
`state["search_results"]` to the fresh result list. -/
def _searching_node (sys : Sys) : Sys :=
  let s := sys.rs
  let search_results := _simulate_web_search s.query s.research_plan
  let documents : List Document := search_results.map fun r =>
    { page_content := r.content, title := r.title, url := r.url,
      source_type := r.source_type, relevance_score := r.relevance_score }
  let store := if documents.isEmpty then sys.vectorstore else sys.vectorstore ++ documents
  { rs := { s with
      search_results := search_results,
      current_phase := "searching",
      messages := s.messages ++ [.foundSources search_results.length] },
    vectorstore := store }

/-- Analyzing node: retrieves relevant documents, asks the Oracle; on
`JSONDecodeError` substitutes the fallback analysis; other exceptions
propagate. -/
def _analyzing_node (o : Oracle) (sys : Sys) : Except String Sys :=
  match o.analyzeReply sys.rs (o.retrieve sys.vectorstore sys.rs.query) with
  | .raise e => .error e
  | .badJSON =>
    .ok { sys with rs := { sys.rs with
      analysis_results := .obj fallbackAnalysis,
      current_phase := "analyzing",
      messages := sys.rs.messages ++ [.analysisCompleted fallbackAnalysis.key_facts.length] } }
  | .parsed a =>
    .ok { sys with rs := { sys.rs with
      analysis_results := .obj a,
      current_phase := "analyzing",
      messages := sys.rs.messages ++ [.analysisCompleted a.key_facts.length] } }

/-- Synthesizing node: same fallback-on-parse-failure policy. -/
def _synthesizing_node (o : Oracle) (sys : Sys) : Except String Sys :=
  match o.synthReply sys.rs with
  | .raise e => .error e
  | .badJSON =>
    .ok { sys with rs := { sys.rs with
      synthesis := .obj fallbackSynthesis,
      current_phase := "synthesizing",
      messages := sys.rs.messages ++ [.synthesisCompleted fallbackSynthesis.key_insights.length] } }
  | .parsed sy =>
    .ok { sys with rs := { sys.rs with
      synthesis := .obj sy,
      current_phase := "synthesizing",
      messages := sys.rs.messages ++ [.synthesisCompleted sy.key_insights.length] } }

/-- The report text produced by the `try/except Exception` around the Report
Oracle call: every failure is caught and replaced by an explicit failure
string, so the reporter node itself never raises. -/
def reportText (o : Oracle) (s : ResearchState) : String :=
  match o.reportReply s with
  | .ok r => r
  | .error e => "Report generation failed: " ++ e

def _reporting_node (o : Oracle) (sys : Sys) : Sys :=
  { sys with rs := { sys.rs with
      final_report := reportText o sys.rs,
      current_phase := "reporting",
      messages := sys.rs.messages ++ [.reportGenerated (reportText o sys.rs).length] } }

/-- The unconditional increment of `iteration_count` (and phase update) that
the iterating node performs right after the Oracle decision is parsed,
before the branch on `needs_more_research`. -/
def iterBumped (s : ResearchState) : ResearchState :=
  { s with iteration_count := s.iteration_count + 1, current_phase := "iterating" }

/-- The `additional_queries` extension guarded by `if additional_queries:`
(and by the `"additional_queries" not in research_plan` key check). -/
def iterWithQueries (s : ResearchState) (d : IterationDecision) : ResearchState :=
  if d.additional_queries.isEmpty then s
  else { s with research_plan := { s.research_plan with
    additional_queries := some ((s.research_plan.additional_queries.getD []) ++
      d.additional_queries) } }

def iterateUpdate (sys : Sys) (iteration_decision : IterationDecision) : Sys :=
  if iteration_decision.needs_more_research then
    { sys with rs := { iterWithQueries (iterBumped sys.rs) iteration_decision with
        messages := (iterWithQueries (iterBumped sys.rs) iteration_decision).messages ++
          [.additionalResearchNeeded iteration_decision.reasoning] } }
  else
    { sys with rs := { iterBumped sys.rs with
        research_complete := true,
        messages := (iterBumped sys.rs).messages ++ [.researchIterationComplete] } }

/-- Iterating node: the ceiling check comes first and returns without an
Oracle call; otherwise the Oracle is consulted (fallback decision on
`JSONDecodeError`, propagation on any other exception). -/
def _iterating_node (o : Oracle) (sys : Sys) : Except String Sys :=
  if sys.rs.iteration_count ≥ sys.rs.max_iterations then
    .ok { sys with rs := { sys.rs with
      research_complete := true, current_phase := "reporting" } }
  else
    match o.iterateReply sys.rs with
    | .raise e => .error e
    | .badJSON => .ok (iterateUpdate sys fallbackDecision)
    | .parsed d => .ok (iterateUpdate sys d)

/-- Routing predicate `_should_iterate`: the conditional edge out of the reporter node. -/
def _should_iterate (s : ResearchState) : String :=
  if s.research_complete then "complete" else "iterate"

/-- One trace entry: the executed node name and the state after it. -/
abbrev TraceEntry := String × Sys

/-- One pass searcher -> analyzer -> synthesizer -> reporter (the straight-line
edges of `_build_graph`). -/
def pipelinePass (o : Oracle) (sys : Sys) : Except String (Sys × List TraceEntry) :=
  match _analyzing_node o (_searching_node sys) with
  | .error e => .error e
  | .ok s2 =>
    match _synthesizing_node o s2 with
    | .error e => .error e
    | .ok s3 =>
      .ok (_reporting_node o s3,
        [("searcher", _searching_node sys), ("analyzer", s2),
         ("synthesizer", s3), ("reporter", _reporting_node o s3)])

/-- The cyclic part of the compiled graph: after the reporter, the conditional
edge `_should_iterate` either ends the run or enters the iterator, whose sole
outgoing edge leads back to the searcher.  `fuel` models the graph engine's
recursion budget. -/
def graphLoop (o : Oracle) : Nat → Sys → Except String (Sys × List TraceEntry)
  | 0, _ => .error "Recursion limit reached"
  | fuel + 1, sys =>
    match pipelinePass o sys with
    | .error e => .error e
    | .ok (s4, tr) =>
      if _should_iterate s4.rs = "complete" then .ok (s4, tr)
      else
        match _iterating_node o s4 with
        | .error e => .error e
        | .ok s5 =>
          match graphLoop o fuel s5 with
          | .error e => .error e
          | .ok (sfin, tr2) => .ok (sfin, tr ++ ("iterator", s5) :: tr2)

/-- The initial `ResearchState` built by `conduct_research`. -/
def initialState (query : String) (max_iterations : Nat) : ResearchState :=
  { messages := [.human query],
    query := query,
    research_plan := {},
    search_results := [],
    analysis_results := .emptyList,
    synthesis := .emptyObj,
    final_report := "",
    current_phase := "planning",
    iteration_count := 0,
    max_iterations := max_iterations,
    research_complete := false }

/-- Graph invocation (`graph.ainvoke`): planner entry point, then the loop. -/
def runGraph (o : Oracle) (fuel : Nat) (sys0 : Sys) : Except String (Sys × List TraceEntry) :=
  match _planning_node o sys0 with
  | .error e => .error e
  | .ok s1 =>
    match graphLoop o fuel s1 with
    | .error e => .error e
    | .ok (sfin, tr) => .ok (sfin, ("planner", s1) :: tr)

/-- The dictionary returned by `conduct_research`.  `Option` fields are the
keys present only in the success dictionary; `error` is present only in the
failure dictionary. -/
structure ResearchResult where
  query : String
  final_report : String
  research_plan : Option Plan := none
  search_results : List SearchResult := []
  analysis_results : Option AnalysisVal := none
  synthesis : Option SynthVal := none
  iteration_count : Option Nat := none
  messages : List Msg := []
  status : String
  error : Option String := none
deriving DecidableEq, Inhabited

/-- Entry point `conduct_research`: builds the initial state, runs the graph, and either
assembles the completed result (appending it to `self.research_history`) or
catches the exception and returns a failed result without touching the
history. -/
def conduct_research (o : Oracle) (fuel : Nat) (query : String) (max_iterations : Nat)
    (vectorstore : List Document) (research_history : List ResearchResult) :
    ResearchResult × List ResearchResult :=
  match runGraph o fuel { rs := initialState query max_iterations, vectorstore := vectorstore } with
  | .ok (sys, _) =>
    let s := sys.rs
    let result : ResearchResult :=
      { query := query,
        final_report := s.final_report,
        research_plan := some s.research_plan,
        search_results := s.search_results,
        analysis_results := some s.analysis_results,
        synthesis := some s.synthesis,
        iteration_count := some s.iteration_count,
        messages := s.messages,
        status := "completed",
        error := none }
    (result, research_history ++ [result])
  | .error e =>
    ({ query := query,
       final_report := "Research failed: " ++ e,
       status := "failed",
       error := some e }, research_history)

/-- The node-execution trace of a fresh research session (empty on failure). -/
def runTrace (o : Oracle) (fuel : Nat) (query : String) (max_iterations : Nat) :
    List TraceEntry :=
  match runGraph o fuel { rs := initialState query max_iterations, vectorstore := [] } with
  | .ok (_, tr) => tr
  | .error _ => []

/-- A stub Oracle returning fixed well-formed replies at every phase. -/
def stubOracle (p : Plan) (a : Analysis) (sy : Synthesis) (rep : Except String String)
    (d : IterationDecision) : Oracle :=
  { planReply := fun _ => .parsed p,
    retrieve := fun store _ => store.take 5,
    analyzeReply := fun _ _ => .parsed a,
    synthReply := fun _ => .parsed sy,
    reportReply := fun _ => rep,
    iterateReply := fun _ => .parsed d }

/-- A stub Oracle returning syntactically invalid JSON at Plan, Analyze and
Synthesize, a fixed report, and a fixed parsed iteration decision. -/
def badJSONOracle (rep : String) (d : IterationDecision) : Oracle :=
  { planReply := fun _ => .badJSON,
    retrieve := fun store _ => store.take 5,
    analyzeReply := fun _ _ => .badJSON,
    synthReply := fun _ => .badJSON,
    reportReply := fun _ => .ok rep,
    iterateReply := fun _ => .parsed d }

/-- An Oracle none of whose JSON-phase calls ever raises (it may still return
unparseable text, and the Report call may fail — the reporter catches that). -/
def NoRaise (o : Oracle) : Prop :=
  (∀ s e, o.planReply s ≠ .raise e) ∧
  (∀ s docs e, o.analyzeReply s docs ≠ .raise e) ∧
  (∀ s e, o.synthReply s ≠ .raise e) ∧
  (∀ s e, o.iterateReply s ≠ .raise e)

/-- Stub whose Iterate-Decide reply always has `needs_more_research = false`. -/
def stubFalse : Oracle :=
  stubOracle {} {} {} (.ok "stub report") {}

/-- Stub whose Iterate-Decide reply always has `needs_more_research = true`. -/
def stubTrue : Oracle :=
  stubOracle {} {} {} (.ok "stub report")
    { needs_more_research := true, reasoning := "more", additional_queries := ["follow-up"] }

/-- Between two successive states of a run, the `search_results` list of the
earlier one is an initial segment of the later one (so in particular its
length does not decrease). -/
def appendStep (a b : Sys) : Prop :=
  a.rs.search_results <+: b.rs.search_results ∧
  a.rs.search_results.length ≤ b.rs.search_results.length

/-- Run invariant: `search_results` is either still the initial empty list or
the (unique) value the mock search produces for the current query and plan. -/
def searchInv (sys : Sys) : Prop :=
  sys.rs.search_results = [] ∨
  sys.rs.search_results = _simulate_web_search sys.rs.query sys.rs.research_plan

/-! ### Node-level lemmas -/

theorem planning_ok_fields (o : Oracle) (sys sys' : Sys)
    (h : _planning_node o sys = .ok sys') :
    sys'.rs.query = sys.rs.query ∧
    sys'.rs.search_results = sys.rs.search_results ∧
    sys'.rs.iteration_count = sys.rs.iteration_count ∧
    sys'.rs.max_iterations = sys.rs.max_iterations ∧
    sys'.rs.research_complete = sys.rs.research_complete ∧
    sys'.vectorstore = sys.vectorstore := by
  unfold _planning_node at h
  split at h
  · exact absurd h (by simp)
  · injection h with h; subst h; simp
  · injection h with h; subst h; simp

theorem searching_fields (sys : Sys) :
    (_searching_node sys).rs.query = sys.rs.query ∧
    (_searching_node sys).rs.research_plan = sys.rs.research_plan ∧
    (_searching_node sys).rs.iteration_count = sys.rs.iteration_count ∧
    (_searching_node sys).rs.max_iterations = sys.rs.max_iterations ∧
    (_searching_node sys).rs.research_complete = sys.rs.research_complete ∧
    (_searching_node sys).rs.search_results
      = _simulate_web_search sys.rs.query sys.rs.research_plan ∧
    (_searching_node sys).rs.messages.length = sys.rs.messages.length + 1 := by
  refine ⟨rfl, rfl, rfl, rfl, rfl, rfl, ?_⟩
  simp [_searching_node]

theorem analyzing_ok_fields (o : Oracle) (sys sys' : Sys)
    (h : _analyzing_node o sys = .ok sys') :
    sys'.rs.query = sys.rs.query ∧
    sys'.rs.research_plan = sys.rs.research_plan ∧
    sys'.rs.search_results = sys.rs.search_results ∧
    sys'.rs.iteration_count = sys.rs.iteration_count ∧
    sys'.rs.max_iterations = sys.rs.max_iterations ∧
    sys'.rs.research_complete = sys.rs.research_complete ∧
    sys'.vectorstore = sys.vectorstore := by
  unfold _analyzing_node at h
  split at h
  · exact absurd h (by simp)
  · injection h with h; subst h; simp
  · injection h with h; subst h; simp

theorem synthesizing_ok_fields (o : Oracle) (sys sys' : Sys)
    (h : _synthesizing_node o sys = .ok sys') :
    sys'.rs.query = sys.rs.query ∧
    sys'.rs.research_plan = sys.rs.research_plan ∧
    sys'.rs.search_results = sys.rs.search_results ∧
    sys'.rs.analysis_results = sys.rs.analysis_results ∧
    sys'.rs.iteration_count = sys.rs.iteration_count ∧
    sys'.rs.max_iterations = sys.rs.max_iterations ∧
    sys'.rs.research_complete = sys.rs.research_complete ∧
    sys'.vectorstore = sys.vectorstore := by
  unfold _synthesizing_node at h
  split at h
  · exact absurd h (by simp)
  · injection h with h; subst h; simp
  · injection h with h; subst h; simp

theorem reporting_fields (o : Oracle) (sys : Sys) :
    (_reporting_node o sys).rs.query = sys.rs.query ∧
    (_reporting_node o sys).rs.research_plan = sys.rs.research_plan ∧
    (_reporting_node o sys).rs.search_results = sys.rs.search_results ∧
    (_reporting_node o sys).rs.analysis_results = sys.rs.analysis_results ∧
    (_reporting_node o sys).rs.synthesis = sys.rs.synthesis ∧
    (_reporting_node o sys).rs.iteration_count = sys.rs.iteration_count ∧
    (_reporting_node o sys).rs.max_iterations = sys.rs.max_iterations ∧
    (_reporting_node o sys).rs.research_complete = sys.rs.research_complete :=
  ⟨rfl, rfl, rfl, rfl, rfl, rfl, rfl, rfl⟩

theorem iterateUpdate_fields (sys : Sys) (d : IterationDecision) :
    (iterateUpdate sys d).rs.query = sys.rs.query ∧
    (iterateUpdate sys d).rs.search_results = sys.rs.search_results ∧
    (iterateUpdate sys d).rs.research_plan.sub_questions
      = sys.rs.research_plan.sub_questions ∧
    (iterateUpdate sys d).rs.iteration_count = sys.rs.iteration_count + 1 ∧
    (iterateUpdate sys d).rs.max_iterations = sys.rs.max_iterations ∧
    (iterateUpdate sys d).rs.research_complete
      = (if d.needs_more_research then sys.rs.research_complete else true) ∧
    (iterateUpdate sys d).vectorstore = sys.vectorstore := by
  unfold iterateUpdate iterBumped iterWithQueries
  cases hm : d.needs_more_research <;> simp [hm]
  all_goals cases hq : d.additional_queries <;> simp [hq]

theorem iterating_ok_fields (o : Oracle) (sys sys' : Sys)
    (h : _iterating_node o sys = .ok sys') :
    sys'.rs.query = sys.rs.query ∧
    sys'.rs.search_results = sys.rs.search_results ∧
    sys'.rs.research_plan.sub_questions = sys.rs.research_plan.sub_questions ∧
    sys'.rs.max_iterations = sys.rs.max_iterations ∧
    sys'.vectorstore = sys.vectorstore ∧
    (sys.rs.max_iterations ≤ sys.rs.iteration_count →
      sys'.rs.iteration_count = sys.rs.iteration_count ∧
      sys'.rs.research_complete = true) ∧
    (sys.rs.iteration_count < sys.rs.max_iterations →
      sys'.rs.iteration_count = sys.rs.iteration_count + 1) := by
  unfold _iterating_node at h
  split at h
  case isTrue hc =>
    injection h with h; subst h
    exact ⟨rfl, rfl, rfl, rfl, rfl, fun _ => ⟨rfl, rfl⟩, fun hlt => absurd hc (by omega)⟩
  case isFalse hc =>
    split at h
    · exact absurd h (by simp)
    all_goals
      injection h with h; subst h
      obtain ⟨h1, h2, h3, h4, h5, _h6, h7⟩ := iterateUpdate_fields sys _
      exact ⟨h1, h2, h3, h5, h7, fun hge => absurd hge hc, fun _ => h4⟩

theorem iterating_not_ceiling (o : Oracle) (sys : Sys) (d : IterationDecision)
    (hc : sys.rs.iteration_count < sys.rs.max_iterations)
    (hr : o.iterateReply sys.rs = .parsed d) :
    _iterating_node o sys = .ok (iterateUpdate sys d) := by
  unfold _iterating_node
  rw [if_neg (by omega), hr]

theorem iterating_ceiling (o : Oracle) (sys : Sys)
    (hc : sys.rs.max_iterations ≤ sys.rs.iteration_count) :
    _iterating_node o sys
      = .ok { sys with rs := { sys.rs with
          research_complete := true, current_phase := "reporting" } } := by
  unfold _iterating_node
  rw [if_pos hc]

/-- Inversion of a successful straight-line pass. -/
theorem pipelinePass_inv (o : Oracle) (sys s4 : Sys) (tr : List TraceEntry)
    (h : pipelinePass o sys = .ok (s4, tr)) :
    ∃ s2 s3,
      _analyzing_node o (_searching_node sys) = .ok s2 ∧
      _synthesizing_node o s2 = .ok s3 ∧
      s4 = _reporting_node o s3 ∧
      tr = [("searcher", _searching_node sys), ("analyzer", s2),
            ("synthesizer", s3), ("reporter", s4)] := by
  unfold pipelinePass at h
  split at h
  · exact absurd h (by simp)
  next s2 h2 =>
    split at h
    · exact absurd h (by simp)
    next s3 h3 =>
      injection h with h
      injection h with hA hB
      subst hB
      subst hA
      exact ⟨s2, s3, h2, h3, rfl, rfl⟩

/-- A successful pass preserves the plan, the counters and the completion flag. -/
theorem pipelinePass_fields (o : Oracle) (sys s4 : Sys) (tr : List TraceEntry)
    (h : pipelinePass o sys = .ok (s4, tr)) :
    s4.rs.query = sys.rs.query ∧
    s4.rs.research_plan = sys.rs.research_plan ∧
    s4.rs.iteration_count = sys.rs.iteration_count ∧
    s4.rs.max_iterations = sys.rs.max_iterations ∧
    s4.rs.research_complete = sys.rs.research_complete := by
  obtain ⟨s2, s3, h2, h3, h4, -⟩ := pipelinePass_inv o sys s4 tr h
  obtain ⟨a1, a2, -, a4, a5, a6, -⟩ := analyzing_ok_fields o _ s2 h2
  obtain ⟨b1, b2, -, -, b5, b6, b7, -⟩ := synthesizing_ok_fields o s2 s3 h3
  obtain ⟨q1, q2, q3, q4, q5, -, -⟩ := searching_fields sys
  subst h4
  obtain ⟨r1, r2, -, -, -, r6, r7, r8⟩ := reporting_fields o s3
  refine ⟨?_, ?_, ?_, ?_, ?_⟩
  · rw [r1, b1, a1, q1]
  · rw [r2, b2, a2, q2]
  · rw [r6, b5, a4, q3]
  · rw [r7, b6, a5, q4]
  · rw [r8, b7, a6, q5]

/-! ### Totality: no node of a non-raising Oracle fails -/

theorem planning_total (o : Oracle) (sys : Sys)
    (h : ∀ e, o.planReply sys.rs ≠ .raise e) :
    ∃ sys', _planning_node o sys = .ok sys' := by
  unfold _planning_node
  cases hr : o.planReply sys.rs
  · exact absurd hr (h _)
  · exact ⟨_, rfl⟩
  · exact ⟨_, rfl⟩

theorem analyzing_total (o : Oracle) (sys : Sys)
    (h : ∀ docs e, o.analyzeReply sys.rs docs ≠ .raise e) :
    ∃ sys', _analyzing_node o sys = .ok sys' := by
  unfold _analyzing_node
  cases hr : o.analyzeReply sys.rs (o.retrieve sys.vectorstore sys.rs.query)
  · exact absurd hr (h _ _)
  · exact ⟨_, rfl⟩
  · exact ⟨_, rfl⟩

theorem synthesizing_total (o : Oracle) (sys : Sys)
    (h : ∀ e, o.synthReply sys.rs ≠ .raise e) :
    ∃ sys', _synthesizing_node o sys = .ok sys' := by
  unfold _synthesizing_node
  cases hr : o.synthReply sys.rs
  · exact absurd hr (h _)
  · exact ⟨_, rfl⟩
  · exact ⟨_, rfl⟩

theorem iterating_total (o : Oracle) (sys : Sys)
    (h : ∀ e, o.iterateReply sys.rs ≠ .raise e) :
    ∃ sys', _iterating_node o sys = .ok sys' := by
  unfold _iterating_node
  by_cases hc : sys.rs.iteration_count ≥ sys.rs.max_iterations
  · rw [if_pos hc]; exact ⟨_, rfl⟩
  · rw [if_neg hc]
    cases hr : o.iterateReply sys.rs
    · exact absurd hr (h _)
    · exact ⟨_, rfl⟩
    · exact ⟨_, rfl⟩

theorem pipelinePass_total (o : Oracle) (sys : Sys) (hnr : NoRaise o) :
    ∃ s4 tr, pipelinePass o sys = .ok (s4, tr) := by
  obtain ⟨s2, h2⟩ := analyzing_total o (_searching_node sys) (fun docs e => hnr.2.1 _ docs e)
  obtain ⟨s3, h3⟩ := synthesizing_total o s2 (fun e => hnr.2.2.1 _ e)
  refine ⟨_reporting_node o s3,
    [("searcher", _searching_node sys), ("analyzer", s2),
     ("synthesizer", s3), ("reporter", _reporting_node o s3)], ?_⟩
  unfold pipelinePass
  simp only [h2, h3]

/-! ### Loop-level lemmas -/

/-- The iteration counter never exceeds the ceiling (any Oracle). -/
theorem graphLoop_count_le (o : Oracle) : ∀ (fuel : Nat) (sys res : Sys) (tr : List TraceEntry),
    graphLoop o fuel sys = .ok (res, tr) →
    sys.rs.iteration_count ≤ sys.rs.max_iterations →
    res.rs.iteration_count ≤ res.rs.max_iterations ∧
    res.rs.max_iterations = sys.rs.max_iterations := by
  intro fuel
  induction fuel with
  | zero => intro sys res tr h; exact absurd h (by simp [graphLoop])
  | succ n ih =>
    intro sys res tr h hle
    rw [graphLoop] at h
    split at h
    · exact absurd h (by simp)
    rename_i s4 trP hp
    obtain ⟨-, -, p3, p4, -⟩ := pipelinePass_fields o sys s4 trP hp
    split at h
    · injection h with h
      injection h with hA hB
      subst hA
      omega
    · split at h
      · exact absurd h (by simp)
      rename_i s5 hi
      split at h
      · exact absurd h (by simp)
      rename_i sfin tr2 hrec
      injection h with h
      injection h with hA hB
      subst hA
      obtain ⟨-, -, -, i4, -, iceil, ilt⟩ := iterating_ok_fields o s4 s5 hi
      have h5le : s5.rs.iteration_count ≤ s5.rs.max_iterations := by
        by_cases hcc : s4.rs.max_iterations ≤ s4.rs.iteration_count
        · obtain ⟨e1, e2⟩ := iceil hcc; omega
        · have := ilt (by omega); omega
      obtain ⟨r1, r2⟩ := ih s5 sfin tr2 hrec h5le
      have h5max : s5.rs.max_iterations = s4.rs.max_iterations := i4
      omega

theorem should_iterate_of_complete (s : ResearchState) (h : s.research_complete = true) :
    _should_iterate s = "complete" := by
  unfold _should_iterate; rw [h]; simp

theorem should_iterate_of_not_complete (s : ResearchState) (h : s.research_complete = false) :
    ¬ _should_iterate s = "complete" := by
  unfold _should_iterate; rw [h]; simp

/-- Any non-raising Oracle drives the loop to a successful, complete final
state, given fuel `max - count + 2`; the final state is always the output of
some straight-line pass. -/
theorem graphLoop_total (o : Oracle) (hnr : NoRaise o) : ∀ (fuel : Nat) (sys : Sys),
    (if sys.rs.research_complete then 1
     else sys.rs.max_iterations - sys.rs.iteration_count + 2) ≤ fuel →
    sys.rs.iteration_count ≤ sys.rs.max_iterations →
    ∃ res tr, graphLoop o fuel sys = .ok (res, tr) ∧
      res.rs.research_complete = true ∧
      res.rs.max_iterations = sys.rs.max_iterations ∧
      res.rs.query = sys.rs.query ∧
      res.rs.research_plan.sub_questions = sys.rs.research_plan.sub_questions ∧
      (sys.rs.research_complete = true → res.rs.iteration_count = sys.rs.iteration_count) ∧
      ∃ sysp trp, pipelinePass o sysp = .ok (res, trp) := by
  intro fuel
  induction fuel with
  | zero => intro sys hfuel hle; split at hfuel <;> omega
  | succ n ih =>
    intro sys hfuel hle
    obtain ⟨s4, trP, hp⟩ := pipelinePass_total o sys hnr
    obtain ⟨p1, p2, p3, p4, p5⟩ := pipelinePass_fields o sys s4 trP hp
    cases hcomp : sys.rs.research_complete with
    | true =>
      have hs4c : s4.rs.research_complete = true := by rw [p5, hcomp]
      have hstep : graphLoop o (n + 1) sys = .ok (s4, trP) := by
        rw [graphLoop]
        simp only [hp]
        rw [if_pos (should_iterate_of_complete s4.rs hs4c)]
      exact ⟨s4, trP, hstep, hs4c, p4, p1, by rw [p2], fun _ => p3, sys, trP, hp⟩
    | false =>
      have hs4c : s4.rs.research_complete = false := by rw [p5, hcomp]
      have hsi := should_iterate_of_not_complete s4.rs hs4c
      obtain ⟨s5, hi⟩ := iterating_total o s4 (fun e => hnr.2.2.2 _ e)
      obtain ⟨i1, i2, i3, i4, i5, iceil, ilt⟩ := iterating_ok_fields o s4 s5 hi
      simp only [hcomp, Bool.false_eq_true, if_false] at hfuel
      have h5le : s5.rs.iteration_count ≤ s5.rs.max_iterations := by
        by_cases hcc : s4.rs.max_iterations ≤ s4.rs.iteration_count
        · obtain ⟨e1, e2⟩ := iceil hcc; omega
        · have := ilt (by omega); omega
      have h5fuel :
          (if s5.rs.research_complete then 1
           else s5.rs.max_iterations - s5.rs.iteration_count + 2) ≤ n := by
        by_cases hcc : s4.rs.max_iterations ≤ s4.rs.iteration_count
        · obtain ⟨e1, e2⟩ := iceil hcc
          simp only [e2, if_true]
          omega
        · have hinc := ilt (by omega)
          split <;> omega
      obtain ⟨res, tr2, hrec, c1, c2, c3, c4, -, hpp⟩ := ih s5 h5fuel h5le
      have hstep : graphLoop o (n + 1) sys
          = .ok (res, trP ++ ("iterator", s5) :: tr2) := by
        rw [graphLoop]
        simp only [hp]
        rw [if_neg hsi]
        simp only [hi, hrec]
      refine ⟨res, _, hstep, c1, ?_, ?_, ?_, fun hco => absurd hco (by simp [hcomp]), hpp⟩
      · rw [c2, i4, p4]
      · rw [c3, i1, p1]
      · rw [c4, i3, p2]

/-- When the Oracle always answers `needs_more_research = true`, the loop
terminates with the counter exactly at the ceiling. -/
theorem graphLoop_true_exact (o : Oracle) (hnr : NoRaise o)
    (hIt : ∀ s, ∃ d, o.iterateReply s = .parsed d ∧ d.needs_more_research = true) :
    ∀ (fuel : Nat) (sys : Sys),
    sys.rs.research_complete = false →
    sys.rs.iteration_count ≤ sys.rs.max_iterations →
    sys.rs.max_iterations - sys.rs.iteration_count + 2 ≤ fuel →
    ∃ res tr, graphLoop o fuel sys = .ok (res, tr) ∧
      res.rs.iteration_count = sys.rs.max_iterations ∧
      res.rs.max_iterations = sys.rs.max_iterations ∧
      res.rs.research_complete = true := by
  intro fuel
  induction fuel with
  | zero => intro sys hcomp hle hfuel; omega
  | succ n ih =>
    intro sys hcomp hle hfuel
    obtain ⟨s4, trP, hp⟩ := pipelinePass_total o sys hnr
    obtain ⟨p1, p2, p3, p4, p5⟩ := pipelinePass_fields o sys s4 trP hp
    have hs4c : s4.rs.research_complete = false := by rw [p5, hcomp]
    have hsi := should_iterate_of_not_complete s4.rs hs4c
    by_cases hcc : s4.rs.max_iterations ≤ s4.rs.iteration_count
    · have hi := iterating_ceiling o s4 hcc
      set s5 : Sys := { s4 with rs := { s4.rs with
        research_complete := true, current_phase := "reporting" } } with hs5
      obtain ⟨res, tr2, hrec, c1, c2, -, -, c5, -⟩ :=
        graphLoop_total o hnr n s5 (by simp [hs5]; omega) (by simp [hs5]; omega)
      have hstep : graphLoop o (n + 1) sys
          = .ok (res, trP ++ ("iterator", s5) :: tr2) := by
        rw [graphLoop]
        simp only [hp]
        rw [if_neg hsi]
        simp only [hi, hrec]
      have hcount : res.rs.iteration_count = sys.rs.max_iterations := by
        have := c5 (by simp [hs5])
        simp [hs5] at this
        omega
      exact ⟨res, _, hstep, hcount, by
        have : s5.rs.max_iterations = s4.rs.max_iterations := by simp [hs5]
        omega, c1⟩
    · obtain ⟨d, hd, hdt⟩ := hIt s4.rs
      have hi := iterating_not_ceiling o s4 d (by omega) hd
      obtain ⟨u1, u2, u3, u4, u5, u6, u7⟩ := iterateUpdate_fields s4 d
      have h5comp : (iterateUpdate s4 d).rs.research_complete = false := by
        rw [u6, hdt, if_pos rfl, hs4c]
      obtain ⟨res, tr2, hrec, r1, r2, r3⟩ :=
        ih (iterateUpdate s4 d) h5comp (by omega) (by omega)
      have hstep : graphLoop o (n + 1) sys
          = .ok (res, trP ++ ("iterator", iterateUpdate s4 d) :: tr2) := by
        rw [graphLoop]
        simp only [hp]
        rw [if_neg hsi]
        simp only [hi, hrec]
      exact ⟨res, _, hstep, by omega, by omega, r3⟩

/-! ### Search-results accumulation -/

theorem simulate_congr (q : String) (p p' : Plan)
    (h : p.sub_questions = p'.sub_questions) :
    _simulate_web_search q p = _simulate_web_search q p' := by
  unfold _simulate_web_search; rw [h]

theorem appendStep_of_eq (a b : Sys)
    (h : b.rs.search_results = a.rs.search_results) : appendStep a b :=
  ⟨⟨[], by rw [List.append_nil, h]⟩, by rw [h]⟩

theorem appendStep_of_nil (a b : Sys)
    (h : a.rs.search_results = []) : appendStep a b :=
  ⟨⟨b.rs.search_results, by rw [h]; rfl⟩, by simp [h]⟩

theorem searchInv_transport (a b : Sys)
    (hs : b.rs.search_results = a.rs.search_results)
    (hq : b.rs.query = a.rs.query)
    (hsub : b.rs.research_plan.sub_questions = a.rs.research_plan.sub_questions)
    (h : searchInv a) : searchInv b := by
  cases h with
  | inl h0 => left; rw [hs, h0]
  | inr h0 =>
    right
    rw [hs, h0, hq]
    exact simulate_congr _ _ _ hsub.symm

theorem searching_appendStep (sys : Sys) (hInv : searchInv sys) :
    appendStep sys (_searching_node sys) ∧ searchInv (_searching_node sys) := by
  obtain ⟨q1, q2, -, -, -, q6, -⟩ := searching_fields sys
  constructor
  · cases hInv with
    | inl h0 => exact appendStep_of_nil _ _ h0
    | inr h0 => exact appendStep_of_eq _ _ (by rw [q6, h0])
  · right
    rw [q6, q1, q2]

/-- Along any successful run of the loop, `search_results` only ever grows
(and in fact is constant after its first assignment). -/
theorem graphLoop_chain (o : Oracle) : ∀ (fuel : Nat) (sys res : Sys) (tr : List TraceEntry),
    graphLoop o fuel sys = .ok (res, tr) → searchInv sys →
    List.Chain' appendStep (sys :: tr.map Prod.snd) := by
  intro fuel
  induction fuel with
  | zero => intro sys res tr h; exact absurd h (by simp [graphLoop])
  | succ n ih =>
    intro sys res tr h hInv
    rw [graphLoop] at h
    split at h
    · exact absurd h (by simp)
    rename_i s4 trP hp
    obtain ⟨s2, s3, h2, h3, h4, htr⟩ := pipelinePass_inv o sys s4 trP hp
    obtain ⟨hstep1, hInv1⟩ := searching_appendStep sys hInv
    obtain ⟨a1, a2, a3, -, -, -, -⟩ := analyzing_ok_fields o _ s2 h2
    obtain ⟨b1, b2, b3, -, -, -, -, -⟩ := synthesizing_ok_fields o s2 s3 h3
    obtain ⟨r1, r2, r3, -, -, -, -, -⟩ := reporting_fields o s3
    have hstep2 : appendStep (_searching_node sys) s2 := appendStep_of_eq _ _ a3
    have hInv2 : searchInv s2 := searchInv_transport _ _ a3 a1 (by rw [a2]) hInv1
    have hstep3 : appendStep s2 s3 := appendStep_of_eq _ _ b3
    have hInv3 : searchInv s3 := searchInv_transport _ _ b3 b1 (by rw [b2]) hInv2
    have hstep4 : appendStep s3 s4 := by rw [h4]; exact appendStep_of_eq _ _ r3
    have hInv4 : searchInv s4 := by
      rw [h4]; exact searchInv_transport _ _ r3 r1 (by rw [r2]) hInv3
    split at h
    · injection h with h
      injection h with hA hB
      subst hA; subst hB
      rw [htr]
      simp only [List.map_cons, List.map_nil]
      exact List.chain'_cons.2 ⟨hstep1, List.chain'_cons.2 ⟨hstep2,
        List.chain'_cons.2 ⟨hstep3, List.chain'_cons.2 ⟨hstep4,
          List.chain'_singleton _⟩⟩⟩⟩
    · split at h
      · exact absurd h (by simp)
      rename_i s5 hi
      split at h
      · exact absurd h (by simp)
      rename_i sfin tr2 hrec
      injection h with h
      injection h with hA hB
      subst hA; subst hB
      obtain ⟨i1, i2, i3, -, -, -, -⟩ := iterating_ok_fields o s4 s5 hi
      have hstep5 : appendStep s4 s5 := appendStep_of_eq _ _ i2
      have hInv5 : searchInv s5 := searchInv_transport _ _ i2 i1 i3 hInv4
      have hchain2 := ih s5 sfin tr2 hrec hInv5
      rw [htr]
      simp only [List.map_append, List.map_cons, List.map_nil, List.cons_append,
        List.nil_append]
      exact List.chain'_cons.2 ⟨hstep1, List.chain'_cons.2 ⟨hstep2,
        List.chain'_cons.2 ⟨hstep3, List.chain'_cons.2 ⟨hstep4,
          List.chain'_cons.2 ⟨hstep5, hchain2⟩⟩⟩⟩⟩

/-! ### What happens after `research_complete` becomes true -/

/-- A loop entered with the flag already true runs exactly one more pass
(four node executions) and stops. -/
theorem graphLoop_complete_entry (o : Oracle) (fuel : Nat) (sys res : Sys)
    (tr : List TraceEntry) (h : graphLoop o fuel sys = .ok (res, tr))
    (hc : sys.rs.research_complete = true) : tr.length = 4 := by
  cases fuel with
  | zero => exact absurd h (by simp [graphLoop])
  | succ n =>
    rw [graphLoop] at h
    split at h
    · exact absurd h (by simp)
    rename_i s4 trP hp
    obtain ⟨-, -, -, -, p5⟩ := pipelinePass_fields o sys s4 trP hp
    have hs4 : s4.rs.research_complete = true := by rw [p5, hc]
    rw [if_pos (should_iterate_of_complete s4.rs hs4)] at h
    injection h with h
    injection h with hA hB
    subst hB
    obtain ⟨s2, s3, -, -, -, htr⟩ := pipelinePass_inv o sys s4 trP hp
    rw [htr]
    rfl

/-- Once a trace entry carries `research_complete = true`, at most four more
node executions follow it. -/
theorem graphLoop_after_complete (o : Oracle) : ∀ (fuel : Nat) (sys res : Sys)
    (tr : List TraceEntry), graphLoop o fuel sys = .ok (res, tr) →
    ∀ (i : Nat) (x : TraceEntry) (suf : List TraceEntry), tr.drop i = x :: suf →
      x.2.rs.research_complete = true → suf.length ≤ 4 := by
  intro fuel
  induction fuel with
  | zero => intro sys res tr h; exact absurd h (by simp [graphLoop])
  | succ n ih =>
    intro sys res tr h i x suf hdrop hcom
    rw [graphLoop] at h
    split at h
    · exact absurd h (by simp)
    rename_i s4 trP hp
    obtain ⟨s2, s3, h2, h3, h4, htr⟩ := pipelinePass_inv o sys s4 trP hp
    split at h
    · injection h with h
      injection h with hA hB
      subst hB
      subst htr
      have hlen := congrArg List.length hdrop
      simp only [List.length_drop, List.length_cons, List.length_nil] at hlen
      omega
    rename_i hsi
    split at h
    · exact absurd h (by simp)
    rename_i s5 hi5
    split at h
    · exact absurd h (by simp)
    rename_i sfin tr2 hrec
    injection h with h
    injection h with hA hB
    subst hB
    subst htr
    have hs4 : s4.rs.research_complete = false := by
      cases hv : s4.rs.research_complete with
      | false => rfl
      | true => exact absurd (should_iterate_of_complete s4.rs hv) hsi
    obtain ⟨-, -, -, -, -, -, -, r8⟩ := reporting_fields o s3
    have hs3 : s3.rs.research_complete = false := by
      rw [h4] at hs4; rw [← r8, hs4]
    obtain ⟨-, -, -, -, -, -, b7, -⟩ := synthesizing_ok_fields o s2 s3 h3
    have hs2 : s2.rs.research_complete = false := by rw [← b7, hs3]
    obtain ⟨-, -, -, -, -, a6, -⟩ := analyzing_ok_fields o _ s2 h2
    have hs1 : (_searching_node sys).rs.research_complete = false := by
      rw [← a6, hs2]
    simp only [List.cons_append, List.nil_append] at hdrop
    rcases i with _ | _ | _ | _ | _ | k
    all_goals simp only [List.drop_succ_cons, List.drop_zero] at hdrop
    · injection hdrop with hx _
      subst hx
      exact absurd hcom (by rw [hs1]; simp)
    · injection hdrop with hx _
      subst hx
      exact absurd hcom (by rw [hs2]; simp)
    · injection hdrop with hx _
      subst hx
      exact absurd hcom (by rw [hs3]; simp)
    · injection hdrop with hx _
      subst hx
      exact absurd hcom (by rw [hs4]; simp)
    · injection hdrop with hx hsuf
      subst hx
      subst hsuf
      have hlen2 := graphLoop_complete_entry o n s5 sfin tr2 hrec hcom
      omega
    · exact ih s5 sfin tr2 hrec k x suf hdrop hcom

/-! ### Behaviour of the bad-JSON stub at each phase -/

theorem badJSON_planning (rep : String) (d : IterationDecision) (sys : Sys) :
    _planning_node (badJSONOracle rep d) sys
      = .ok { sys with rs := { sys.rs with
          research_plan := fallbackPlan sys.rs.query,
          current_phase := "planning",
          messages := sys.rs.messages ++ [.planCreated (fallbackPlan sys.rs.query)] } } := rfl

theorem badJSON_analyzing (rep : String) (d : IterationDecision) (sys s2 : Sys)
    (h : _analyzing_node (badJSONOracle rep d) sys = .ok s2) :
    s2.rs.analysis_results = .obj fallbackAnalysis := by
  have h0 : _analyzing_node (badJSONOracle rep d) sys
      = .ok { sys with rs := { sys.rs with
          analysis_results := .obj fallbackAnalysis,
          current_phase := "analyzing",
          messages := sys.rs.messages ++
            [.analysisCompleted fallbackAnalysis.key_facts.length] } } := rfl
  rw [h0] at h
  injection h with h
  rw [← h]

theorem badJSON_synthesizing (rep : String) (d : IterationDecision) (sys s3 : Sys)
    (h : _synthesizing_node (badJSONOracle rep d) sys = .ok s3) :
    s3.rs.synthesis = .obj fallbackSynthesis := by
  have h0 : _synthesizing_node (badJSONOracle rep d) sys
      = .ok { sys with rs := { sys.rs with
          synthesis := .obj fallbackSynthesis,
          current_phase := "synthesizing",
          messages := sys.rs.messages ++
            [.synthesisCompleted fallbackSynthesis.key_insights.length] } } := rfl
  rw [h0] at h
  injection h with h
  rw [← h]

theorem badJSON_report_text (rep : String) (d : IterationDecision) (s : ResearchState) :
    reportText (badJSONOracle rep d) s = rep := rfl

/-! ### Claim theorems -/

/-- C1: for every Oracle, query, fuel and `max_iterations`, a result of
`conduct_research` with status `"completed"` carries
`iteration_count <= max_iterations`: the iterating node, entered with
`iteration_count >= max_iterations`, sets the completion flag and returns
without incrementing, so the ceiling is never exceeded regardless of Oracle
output. -/
theorem C1_iteration_ceiling (o : Oracle) (fuel : Nat) (q : String) (m : Nat)
    (vs : List Document) (hist : List ResearchResult)
    (h : (conduct_research o fuel q m vs hist).1.status = "completed") :
    ∃ n, (conduct_research o fuel q m vs hist).1.iteration_count = some n ∧ n ≤ m := by
  cases hr : runGraph o fuel { rs := initialState q m, vectorstore := vs } with
  | error e =>
    exfalso
    simp only [conduct_research, hr] at h
    exact absurd h (by simp)
  | ok p =>
    obtain ⟨sys, tr⟩ := p
    simp only [conduct_research, hr]
    refine ⟨sys.rs.iteration_count, rfl, ?_⟩
    unfold runGraph at hr
    split at hr
    · exact absurd hr (by simp)
    rename_i s1 hplan
    split at hr
    · exact absurd hr (by simp)
    rename_i sfin tr0 hloop
    injection hr with hr
    injection hr with hA hB
    obtain ⟨-, -, pc, pm, -, -⟩ := planning_ok_fields o _ s1 hplan
    have h1 : s1.rs.iteration_count ≤ s1.rs.max_iterations := by
      rw [pc, pm]; simp [initialState]
    obtain ⟨g1, g2⟩ := graphLoop_count_le o fuel s1 sfin tr0 hloop h1
    subst hA
    rw [pm] at g2
    simp only [initialState] at g2
    omega

/-- C1 witness: a concrete completed run respects the ceiling. -/
theorem C1_iteration_ceiling_witness :
    ∃ n, (conduct_research stubFalse 5 "q" 3 [] []).1.iteration_count = some n ∧ n ≤ 3 :=
  C1_iteration_ceiling stubFalse 5 "q" 3 [] [] rfl

/-- C3: along every run (any Oracle, query, fuel, ceiling), consecutive
states of the node trace only ever extend `search_results`: each earlier
value is an initial segment of the later one, and its length never
decreases. -/
theorem C3_search_results_append_only (o : Oracle) (fuel : Nat) (q : String) (m : Nat) :
    List.Chain' appendStep
      (({ rs := initialState q m, vectorstore := [] } : Sys)
        :: (runTrace o fuel q m).map Prod.snd) := by
  unfold runTrace
  cases hr : runGraph o fuel { rs := initialState q m, vectorstore := [] } with
  | error e => simp
  | ok p =>
    obtain ⟨res, tr⟩ := p
    unfold runGraph at hr
    split at hr
    · exact absurd hr (by simp)
    rename_i s1 hplan
    split at hr
    · exact absurd hr (by simp)
    rename_i sfin tr0 hloop
    injection hr with hr
    injection hr with hA hB
    subst hA
    subst hB
    simp only [List.map_cons]
    refine List.chain'_cons.2 ⟨?_, ?_⟩
    · exact appendStep_of_nil _ _ (by simp [initialState])
    · apply graphLoop_chain o fuel s1 sfin tr0 hloop
      obtain ⟨-, ps, -, -, -, -⟩ := planning_ok_fields o _ s1 hplan
      left
      rw [ps]
      simp [initialState]

/-- C10: every call of `conduct_research` appends exactly its own result to
`research_history` when the result is `"completed"` and leaves the history
unchanged when the result is `"failed"`; those are the only two statuses. -/
theorem C10_history_append (o : Oracle) (fuel : Nat) (q : String) (m : Nat)
    (vs : List Document) (hist : List ResearchResult) :
    ((conduct_research o fuel q m vs hist).1.status = "completed" ∨
     (conduct_research o fuel q m vs hist).1.status = "failed") ∧
    (conduct_research o fuel q m vs hist).2 =
      (if (conduct_research o fuel q m vs hist).1.status = "completed"
       then hist ++ [(conduct_research o fuel q m vs hist).1] else hist) := by
  cases hr : runGraph o fuel { rs := initialState q m, vectorstore := vs } with
  | ok p =>
    obtain ⟨sys, tr⟩ := p
    simp only [conduct_research, hr]
    simp
  | error e =>
    simp only [conduct_research, hr]
    simp

/-- C2 counterexample: with a stub Oracle whose Report call raises
(`boom`), `conduct_research` still returns status `"completed"` (not
`"failed"`) and no `error`; the report is merely replaced by the failure
string, because the reporting node catches every exception itself. -/
theorem C2_report_failure_counterexample :
    (conduct_research (stubOracle {} {} {} (.error "boom") {}) 5 "q" 3 [] []).1.status
      = "completed" ∧
    (conduct_research (stubOracle {} {} {} (.error "boom") {}) 5 "q" 3 [] []).1.final_report
      = "Report generation failed: boom" ∧
    (conduct_research (stubOracle {} {} {} (.error "boom") {}) 5 "q" 3 [] []).1.error
      = none :=
  ⟨rfl, rfl, rfl⟩

/-- C2 amended: an Oracle exception at the Report phase is caught inside the
reporting node: the session still completes, with
`final_report = "Report generation failed: <e>"` and no error field.  (A
`"failed"` status arises only when an exception propagates out of the graph,
which the Report phase never causes.) -/
theorem C2_report_failure_amended (o : Oracle) (e : String) (hnr : NoRaise o)
    (hrep : ∀ s, o.reportReply s = .error e) (q : String) (m fuel : Nat)
    (hfuel : m + 2 ≤ fuel) :
    (conduct_research o fuel q m [] []).1.status = "completed" ∧
    (conduct_research o fuel q m [] []).1.final_report
      = "Report generation failed: " ++ e ∧
    (conduct_research o fuel q m [] []).1.error = none := by
  obtain ⟨s1, hplan⟩ :=
    planning_total o { rs := initialState q m, vectorstore := [] } (fun e => hnr.1 _ e)
  obtain ⟨-, -, pc, pm, pcm, -⟩ :=
    planning_ok_fields o { rs := initialState q m, vectorstore := [] } s1 hplan
  have h1 : (if s1.rs.research_complete then 1
      else s1.rs.max_iterations - s1.rs.iteration_count + 2) ≤ fuel := by
    rw [pc, pm, pcm]
    simp only [initialState]
    simp
    omega
  have h2 : s1.rs.iteration_count ≤ s1.rs.max_iterations := by
    rw [pc, pm]; simp [initialState]
  obtain ⟨res, tr, hloop, -, -, -, -, -, sysp, trp, hpp⟩ :=
    graphLoop_total o hnr fuel s1 h1 h2
  obtain ⟨s2, s3, -, -, h4, -⟩ := pipelinePass_inv o sysp res trp hpp
  have hfr : res.rs.final_report = "Report generation failed: " ++ e := by
    rw [h4]
    show (reportText o s3.rs) = _
    unfold reportText
    rw [hrep s3.rs]
  have hrun : runGraph o fuel { rs := initialState q m, vectorstore := [] }
      = .ok (res, ("planner", s1) :: tr) := by
    unfold runGraph
    simp only [hplan, hloop]
  refine ⟨?_, ?_, ?_⟩
  · simp [conduct_research, hrun]
  · simp only [conduct_research, hrun]
    exact hfr
  · simp [conduct_research, hrun]

/-- C2 amended witness: concrete instantiation with `e = "boom"`. -/
theorem C2_report_failure_amended_witness :
    (conduct_research (stubOracle {} {} {} (.error "boom") {}) 6 "q" 3 [] []).1.status
      = "completed" ∧
    (conduct_research (stubOracle {} {} {} (.error "boom") {}) 6 "q" 3 [] []).1.final_report
      = "Report generation failed: " ++ "boom" ∧
    (conduct_research (stubOracle {} {} {} (.error "boom") {}) 6 "q" 3 [] []).1.error
      = none :=
  C2_report_failure_amended (stubOracle {} {} {} (.error "boom") {}) "boom"
    ⟨fun _ _ h => OracleReply.noConfusion h, fun _ _ _ h => OracleReply.noConfusion h,
     fun _ _ h => OracleReply.noConfusion h, fun _ _ h => OracleReply.noConfusion h⟩
    (fun _ => rfl) "q" 3 6 (by omega)

/-- C4 counterexample: in a concrete run (stub Oracle that answers
`needs_more_research = false`, `max_iterations = 3`), the trace entry at
index 5 is the iterator with `research_complete = true`, yet the next entry
is another searcher execution whose state differs (one more message), so
phase nodes do mutate the state after the Iterate-Decide node decides to
terminate. -/
theorem C4_mutation_after_complete_counterexample :
    ((runTrace stubFalse 5 "q" 3).get! 5).1 = "iterator" ∧
    ((runTrace stubFalse 5 "q" 3).get! 5).2.rs.research_complete = true ∧
    ((runTrace stubFalse 5 "q" 3).get! 6).1 = "searcher" ∧
    ((runTrace stubFalse 5 "q" 3).get! 5).2.rs.messages.length = 7 ∧
    ((runTrace stubFalse 5 "q" 3).get! 6).2.rs.messages.length = 8 ∧
    ((runTrace stubFalse 5 "q" 3).get! 6).2.rs ≠
      ((runTrace stubFalse 5 "q" 3).get! 5).2.rs := by
  refine ⟨rfl, rfl, rfl, rfl, rfl, fun hcontra => ?_⟩
  have h1 : ((runTrace stubFalse 5 "q" 3).get! 6).2.rs.messages.length = 8 := rfl
  rw [hcontra] at h1
  have h2 : ((runTrace stubFalse 5 "q" 3).get! 5).2.rs.messages.length = 7 := rfl
  rw [h1] at h2
  exact absurd h2 (by decide)

/-- C4 amended: once any trace entry carries `research_complete = true`, at
most four node executions (one searcher-analyzer-synthesizer-reporter pass)
follow before `conduct_research` returns — the iterator's only outgoing edge
leads back to the searcher, and the run stops at the next reporter
conditional. -/
theorem C4_complete_terminal_amended (o : Oracle) (fuel : Nat) (q : String) (m : Nat)
    (i : Nat) (x : TraceEntry) (suf : List TraceEntry)
    (hdrop : (runTrace o fuel q m).drop i = x :: suf)
    (hcom : x.2.rs.research_complete = true) : suf.length ≤ 4 := by
  unfold runTrace at hdrop
  cases hr : runGraph o fuel { rs := initialState q m, vectorstore := [] } with
  | error e =>
    rw [hr] at hdrop
    simp at hdrop
  | ok p =>
    obtain ⟨res, tr⟩ := p
    rw [hr] at hdrop
    unfold runGraph at hr
    split at hr
    · exact absurd hr (by simp)
    rename_i s1 hplan
    split at hr
    · exact absurd hr (by simp)
    rename_i sfin tr0 hloop
    injection hr with hr
    injection hr with hA hB
    subst hA
    subst hB
    rcases i with _ | k
    · simp only [List.drop_zero] at hdrop
      injection hdrop with hx _
      subst hx
      obtain ⟨-, -, -, -, pcm, -⟩ := planning_ok_fields o _ s1 hplan
      rw [pcm] at hcom
      simp only [initialState] at hcom
      exact absurd hcom (by simp)
    · simp only [List.drop_succ_cons] at hdrop
      exact graphLoop_after_complete o fuel s1 sfin tr0 hloop k x suf hdrop hcom

/-- C4 amended witness: in the concrete always-false run, after the iterator
entry (index 5, flag set) exactly four entries remain. -/
theorem C4_complete_terminal_amended_witness :
    ((runTrace stubFalse 5 "q" 3).drop 6).length ≤ 4 :=
  C4_complete_terminal_amended stubFalse 5 "q" 3 5
    ((runTrace stubFalse 5 "q" 3).get! 5) ((runTrace stubFalse 5 "q" 3).drop 6)
    rfl rfl

/-- C5 counterexample: with a stub Oracle that always answers
`needs_more_research = false`, each of the searcher, analyzer, synthesizer
and reporter nodes executes exactly twice — not once as claimed — because
the iterator's unconditional edge routes back to the searcher even after it
marks the research complete. -/
theorem C5_single_iteration_counterexample :
    (runTrace stubFalse 5 "q" 3).map Prod.fst =
      ["planner", "searcher", "analyzer", "synthesizer", "reporter", "iterator",
       "searcher", "analyzer", "synthesizer", "reporter"] ∧
    ((runTrace stubFalse 5 "q" 3).map Prod.fst).count "searcher" = 2 ∧
    ((runTrace stubFalse 5 "q" 3).map Prod.fst).count "analyzer" = 2 ∧
    ((runTrace stubFalse 5 "q" 3).map Prod.fst).count "synthesizer" = 2 ∧
    ((runTrace stubFalse 5 "q" 3).map Prod.fst).count "reporter" = 2 :=
  ⟨rfl, rfl, rfl, rfl, rfl⟩

/-- C5 amended: for every query, ceiling and stub parameters, a stub Oracle
whose Iterate-Decide reply has `needs_more_research = false` yields a session
that runs planner once, then searcher, analyzer, synthesizer and reporter
twice each with one iterator execution in between, and terminates. -/
theorem C5_two_passes_amended (p : Plan) (a : Analysis) (sy : Synthesis)
    (rep : Except String String) (reas : String) (aq : List String)
    (q : String) (m fuel : Nat) :
    (runTrace (stubOracle p a sy rep
        { needs_more_research := false, reasoning := reas, additional_queries := aq })
      (fuel + 2) q m).map Prod.fst =
    ["planner", "searcher", "analyzer", "synthesizer", "reporter", "iterator",
     "searcher", "analyzer", "synthesizer", "reporter"] := by
  cases m with
  | zero => rfl
  | succ n => rfl

/-- C6: for every query, every `max_iterations` and every stub Oracle whose
Iterate-Decide reply always has `needs_more_research = true`, the session
terminates (given fuel at least `max_iterations + 2`) and the returned
`iteration_count` equals `max_iterations` exactly. -/
theorem C6_ceiling_exact (p : Plan) (a : Analysis) (sy : Synthesis)
    (rep : Except String String) (reas : String) (aq : List String)
    (q : String) (m fuel : Nat) :
    (conduct_research (stubOracle p a sy rep
        { needs_more_research := true, reasoning := reas, additional_queries := aq })
      (m + 2 + fuel) q m [] []).1.status = "completed" ∧
    (conduct_research (stubOracle p a sy rep
        { needs_more_research := true, reasoning := reas, additional_queries := aq })
      (m + 2 + fuel) q m [] []).1.iteration_count = some m := by
  have hnr : NoRaise (stubOracle p a sy rep
      { needs_more_research := true, reasoning := reas, additional_queries := aq }) :=
    ⟨fun _ _ h => OracleReply.noConfusion h, fun _ _ _ h => OracleReply.noConfusion h,
     fun _ _ h => OracleReply.noConfusion h, fun _ _ h => OracleReply.noConfusion h⟩
  have hIt : ∀ s, ∃ d, (stubOracle p a sy rep
      { needs_more_research := true, reasoning := reas, additional_queries := aq
        }).iterateReply s = .parsed d ∧ d.needs_more_research = true :=
    fun _ => ⟨_, rfl, rfl⟩
  obtain ⟨s1, hplan⟩ := planning_total _
    { rs := initialState q m, vectorstore := [] } (fun e => hnr.1 _ e)
  obtain ⟨-, -, pc, pm, pcm, -⟩ := planning_ok_fields _ _ s1 hplan
  have h0 : s1.rs.research_complete = false := by
    rw [pcm]; rfl
  have h2 : s1.rs.iteration_count ≤ s1.rs.max_iterations := by
    rw [pc, pm]; simp [initialState]
  have h3 : s1.rs.max_iterations - s1.rs.iteration_count + 2 ≤ m + 2 + fuel := by
    rw [pc, pm]
    simp only [initialState]
    omega
  obtain ⟨res, tr, hloop, hcount, hmax, -⟩ :=
    graphLoop_true_exact _ hnr hIt (m + 2 + fuel) s1 h0 h2 h3
  have hrun : runGraph (stubOracle p a sy rep
      { needs_more_research := true, reasoning := reas, additional_queries := aq })
      (m + 2 + fuel) { rs := initialState q m, vectorstore := [] }
      = .ok (res, ("planner", s1) :: tr) := by
    unfold runGraph
    simp only [hplan, hloop]
  constructor
  · simp [conduct_research, hrun]
  · simp only [conduct_research, hrun]
    rw [hcount, pm]
    rfl

/-- C7 counterexample: with a stub Oracle that decides
`needs_more_research = false` at its single Iterate-Decide execution, the
returned `iteration_count` is 1, not 0 — the node increments the counter
unconditionally after the Oracle decision, not only when the decision is
`true`. -/
theorem C7_increment_on_false_counterexample :
    (conduct_research stubFalse 5 "q" 3 [] []).1.iteration_count = some 1 ∧
    ((runTrace stubFalse 5 "q" 3).map Prod.fst).count "iterator" = 1 :=
  ⟨rfl, rfl⟩

/-- C7 amended: whenever the iterating node passes the ceiling check and
parses an Oracle decision, it increments `iteration_count` unconditionally;
`needs_more_research = false` additionally sets the completion flag, while
`needs_more_research = true` leaves it unchanged and appends any non-empty
`additional_queries` to the plan. -/
theorem C7_increment_unconditional_amended (o : Oracle) (sys : Sys)
    (d : IterationDecision)
    (hlt : sys.rs.iteration_count < sys.rs.max_iterations)
    (hr : o.iterateReply sys.rs = .parsed d) :
    _iterating_node o sys = .ok (iterateUpdate sys d) ∧
    (iterateUpdate sys d).rs.iteration_count = sys.rs.iteration_count + 1 ∧
    (iterateUpdate sys d).rs.research_complete
      = (if d.needs_more_research then sys.rs.research_complete else true) ∧
    (iterateUpdate sys d).rs.research_plan.additional_queries
      = (if d.needs_more_research ∧ ¬ d.additional_queries = [] then
          some (sys.rs.research_plan.additional_queries.getD [] ++ d.additional_queries)
         else sys.rs.research_plan.additional_queries) := by
  refine ⟨iterating_not_ceiling o sys d hlt hr,
    (iterateUpdate_fields sys d).2.2.2.1,
    (iterateUpdate_fields sys d).2.2.2.2.2.1, ?_⟩
  unfold iterateUpdate iterBumped iterWithQueries
  cases hm : d.needs_more_research <;> simp [hm]
  cases hq : d.additional_queries <;> simp [hq]

/-- C7 amended witness: concrete iterating-node execution below the ceiling
with an always-false stub decision increments the counter to 1. -/
theorem C7_increment_unconditional_amended_witness :
    (iterateUpdate { rs := initialState "q" 3, vectorstore := [] }
      ({} : IterationDecision)).rs.iteration_count
      = ({ rs := initialState "q" 3, vectorstore := [] } : Sys).rs.iteration_count + 1 :=
  (C7_increment_unconditional_amended stubFalse
    { rs := initialState "q" 3, vectorstore := [] } {} (by decide) rfl).2.1

/-- C8: if the Oracle returns syntactically invalid JSON at the Plan, Analyze
and Synthesize phases, no exception escapes `conduct_research`: the plan
falls back to `sub_questions = [query]`, analysis and synthesis fall back to
their documented default structures, and provided the Report call succeeds
the result still has status `"completed"` with the stub report. -/
theorem C8_bad_json_graceful (rep : String) (d : IterationDecision)
    (q : String) (m fuel : Nat) :
    (conduct_research (badJSONOracle rep d) (m + 2 + fuel) q m [] []).1.status
      = "completed" ∧
    (conduct_research (badJSONOracle rep d) (m + 2 + fuel) q m [] []).1.error = none ∧
    (∃ p, (conduct_research (badJSONOracle rep d) (m + 2 + fuel) q m [] []).1.research_plan
        = some p ∧ p.sub_questions = some [q]) ∧
    (conduct_research (badJSONOracle rep d) (m + 2 + fuel) q m [] []).1.analysis_results
      = some (.obj fallbackAnalysis) ∧
    (conduct_research (badJSONOracle rep d) (m + 2 + fuel) q m [] []).1.synthesis
      = some (.obj fallbackSynthesis) ∧
    (conduct_research (badJSONOracle rep d) (m + 2 + fuel) q m [] []).1.final_report
      = rep := by
  have hnr : NoRaise (badJSONOracle rep d) :=
    ⟨fun _ _ h => OracleReply.noConfusion h, fun _ _ _ h => OracleReply.noConfusion h,
     fun _ _ h => OracleReply.noConfusion h, fun _ _ h => OracleReply.noConfusion h⟩
  obtain ⟨s1, hplan⟩ := planning_total (badJSONOracle rep d)
    { rs := initialState q m, vectorstore := [] } (fun e => hnr.1 _ e)
  obtain ⟨-, -, pc, pm, pcm, -⟩ := planning_ok_fields _ _ s1 hplan
  have hsub1 : s1.rs.research_plan.sub_questions = some [q] := by
    have hp2 := hplan
    rw [badJSON_planning rep d { rs := initialState q m, vectorstore := [] }] at hp2
    injection hp2 with hinj
    rw [← hinj]
    rfl
  have h1 : (if s1.rs.research_complete then 1
      else s1.rs.max_iterations - s1.rs.iteration_count + 2) ≤ m + 2 + fuel := by
    rw [pc, pm, pcm]
    rw [show ({ rs := initialState q m, vectorstore := [] } : Sys).rs.research_complete
      = false from rfl]
    rw [show ({ rs := initialState q m, vectorstore := [] } : Sys).rs.iteration_count
      = 0 from rfl]
    rw [show ({ rs := initialState q m, vectorstore := [] } : Sys).rs.max_iterations
      = m from rfl]
    simp only [Bool.false_eq_true, if_false]
    omega
  have h2 : s1.rs.iteration_count ≤ s1.rs.max_iterations := by
    rw [pc, pm]; simp [initialState]
  obtain ⟨res, tr, hloop, -, -, -, csub, -, sysp, trp, hpp⟩ :=
    graphLoop_total _ hnr (m + 2 + fuel) s1 h1 h2
  obtain ⟨s2, s3, h2an, h3sy, h4, -⟩ := pipelinePass_inv _ sysp res trp hpp
  have ha2 : s2.rs.analysis_results = .obj fallbackAnalysis :=
    badJSON_analyzing rep d _ s2 h2an
  have hsy3 : s3.rs.synthesis = .obj fallbackSynthesis :=
    badJSON_synthesizing rep d s2 s3 h3sy
  have ha3 : s3.rs.analysis_results = .obj fallbackAnalysis := by
    obtain ⟨-, -, -, e4, -, -, -, -⟩ := synthesizing_ok_fields _ s2 s3 h3sy
    rw [e4, ha2]
  obtain ⟨-, -, -, r4, r5, -, -, -⟩ := reporting_fields (badJSONOracle rep d) s3
  have hresa : res.rs.analysis_results = .obj fallbackAnalysis := by
    rw [h4, r4, ha3]
  have hressy : res.rs.synthesis = .obj fallbackSynthesis := by
    rw [h4, r5, hsy3]
  have hresfr : res.rs.final_report = rep := by
    rw [h4]
    show reportText (badJSONOracle rep d) s3.rs = rep
    exact badJSON_report_text rep d s3.rs
  have hsub : res.rs.research_plan.sub_questions = some [q] := by
    rw [csub, hsub1]
  have hrun : runGraph (badJSONOracle rep d) (m + 2 + fuel)
      { rs := initialState q m, vectorstore := [] }
      = .ok (res, ("planner", s1) :: tr) := by
    unfold runGraph
    simp only [hplan, hloop]
  refine ⟨?_, ?_, ⟨res.rs.research_plan, ?_, hsub⟩, ?_, ?_, ?_⟩
  · simp [conduct_research, hrun]
  · simp [conduct_research, hrun]
  · simp only [conduct_research, hrun]
  · simp only [conduct_research, hrun]
    rw [hresa]
  · simp only [conduct_research, hrun]
    rw [hressy]
  · simp only [conduct_research, hrun]
    exact hresfr

/-- C9 counterexample: an Oracle exception at the Plan phase is not
recovered: the session fails (`status = "failed"`, the exception message as
`error`), contradicting the claim that only Report-phase exceptions are
terminal. -/
theorem C9_plan_exception_counterexample :
    (conduct_research { stubFalse with planReply := fun _ => .raise "Oracle unavailable" }
      5 "q" 3 [] []).1.status = "failed" ∧
    (conduct_research { stubFalse with planReply := fun _ => .raise "Oracle unavailable" }
      5 "q" 3 [] []).1.error = some "Oracle unavailable" :=
  ⟨rfl, rfl⟩

/-- C9 amended: an Oracle call that raises during Plan, Analyze, Synthesize
or Iterate-Decide propagates out of the graph and makes the session fail
with that exception as `error` (only `json.JSONDecodeError` is recovered at
those phases); an exception at Report, by contrast, is swallowed and the
session still completes. -/
theorem C9_exception_fatality_amended :
    (∀ (e q : String) (m fuel : Nat) (vs : List Document) (hist : List ResearchResult),
      (conduct_research { stubFalse with planReply := fun _ => .raise e }
        fuel q m vs hist).1.status = "failed" ∧
      (conduct_research { stubFalse with planReply := fun _ => .raise e }
        fuel q m vs hist).1.error = some e) ∧
    (∀ (e q : String) (m fuel : Nat) (vs : List Document) (hist : List ResearchResult),
      (conduct_research { stubFalse with analyzeReply := fun _ _ => .raise e }
        (fuel + 1) q m vs hist).1.status = "failed" ∧
      (conduct_research { stubFalse with analyzeReply := fun _ _ => .raise e }
        (fuel + 1) q m vs hist).1.error = some e) ∧
    (∀ (e q : String) (m fuel : Nat) (vs : List Document) (hist : List ResearchResult),
      (conduct_research { stubFalse with synthReply := fun _ => .raise e }
        (fuel + 1) q m vs hist).1.status = "failed" ∧
      (conduct_research { stubFalse with synthReply := fun _ => .raise e }
        (fuel + 1) q m vs hist).1.error = some e) ∧
    (∀ (e q : String) (m fuel : Nat) (vs : List Document) (hist : List ResearchResult),
      (conduct_research { stubFalse with iterateReply := fun _ => .raise e }
        (fuel + 1) q (m + 1) vs hist).1.status = "failed" ∧
      (conduct_research { stubFalse with iterateReply := fun _ => .raise e }
        (fuel + 1) q (m + 1) vs hist).1.error = some e) ∧
    (∀ (e q : String) (m fuel : Nat) (vs : List Document) (hist : List ResearchResult),
      (conduct_research { stubFalse with reportReply := fun _ => .error e }
        (fuel + 2) q m vs hist).1.status = "completed" ∧
      (conduct_research { stubFalse with reportReply := fun _ => .error e }
        (fuel + 2) q m vs hist).1.error = none ∧
      (conduct_research { stubFalse with reportReply := fun _ => .error e }
        (fuel + 2) q m vs hist).1.final_report = "Report generation failed: " ++ e) := by
  refine ⟨fun e q m fuel vs hist => ⟨rfl, rfl⟩,
    fun e q m fuel vs hist => ⟨rfl, rfl⟩,
    fun e q m fuel vs hist => ⟨rfl, rfl⟩,
    fun e q m fuel vs hist => ⟨rfl, rfl⟩,
    fun e q m fuel vs hist => ?_⟩
  cases m with
  | zero => exact ⟨rfl, rfl, rfl⟩
  | succ n => exact ⟨rfl, rfl, rfl⟩

end DeepResearch
